import Mathlib

/-!
Verification of the cancellation-request classification engine
(`dsrc/email_analyzer.py` together with the keyword catalog from
`config/email_config.py` and the `EmailData` record from
`src/gmail_client.py`).

Modelling conventions:
* Python floats are modelled by `ℚ`; every constant appearing in the source
  (0.3, 0.8, 0.15, …) is exactly representable, so the arithmetic of the
  scoring algorithm is captured exactly.
* `datetime` values are modelled as naive wall-clock timestamps in whole
  seconds (`Int`).  `datetime.replace(tzinfo=None)` keeps the wall-clock
  fields, so a timestamp is just its naive seconds value, and the analyzer
  field `raw_date` is `Option Int` (`none` models a missing/None date, a case
  the analyzer source itself guards against in `_normalize_datetime` and
  `analyze_trends`).  `timedelta.days` is floor division by 86400
  (`Int.fdiv`), matching Python's floored `//`.
* Text is modelled as `List Char`.  `str.lower` is modelled on the ASCII
  range plus the German letters appearing in the keyword catalog, and the
  `\w` class of the word-boundary regex is modelled as ASCII alphanumerics,
  underscore and the German letters; `\s` as `Char.isWhitespace`.  These
  cover every character the engine's patterns mention.
* Python `set` iteration order is unspecified; `list(set(xs))` is modelled as
  `xs.dedup` (first occurrences kept).  No claim depends on that order.
* `Counter` is modelled as an insertion-ordered association list
  (`List (α × Nat)`), which is exactly the dict-order semantics that
  `Counter.most_common` / `heapq.nlargest` tie-breaking relies on.
* Exceptions: with well-typed records the only reachable raise site inside
  the batch loop is `raw_date.strftime` in `_update_statistics` (an
  `AttributeError` when `raw_date` is `None`); `updateStatistics` therefore
  returns a success flag, `false` meaning the loop's `except` branch fires.
-/

namespace SaeConnect

/-- Model of `gmail_client.EmailData` (the analyzer's input record). -/
structure EmailData where
  id : String
  subject : String
  sender : String
  date : String
  body : String
  raw_date : Option Int
  message_id : String
deriving DecidableEq, Repr

/-- Model of `email_analyzer.CancellationMatch`. -/
structure CancellationMatch where
  keyword : String
  context : String
  position : Nat
  confidence : ℚ
  category : String
deriving DecidableEq, Repr

/-- Model of `email_analyzer.AnalysisResult`. -/
structure AnalysisResult where
  email_data : EmailData
  is_cancellation : Bool
  «matches» : List CancellationMatch
  confidence_score : ℚ
  priority_level : String
  amazon_related : Bool
  order_numbers : List String
deriving DecidableEq, Repr

/-- Keyword list `EmailConfig.CANCELLATION_KEYWORDS_DE`. -/
def CANCELLATION_KEYWORDS_DE : List String :=
  ["stornierung", "stornieren", "storno",
   "rückgabe", "zurückgeben", "zurücksenden",
   "erstattung", "rückerstattung",
   "bestellung stornieren", "bestellung abbrechen",
   "rücktritt", "widerruf", "kündigung",
   "annullierung", "rückabwicklung"]

/-- Keyword list `EmailConfig.CANCELLATION_KEYWORDS_EN`. -/
def CANCELLATION_KEYWORDS_EN : List String :=
  ["cancel", "cancellation", "cancelled",
   "refund", "return", "returning",
   "order cancellation", "cancel order",
   "withdrawal", "revocation",
   "void", "annul", "nullify"]

/-- Keyword list `EmailConfig.AMAZON_KEYWORDS`. -/
def AMAZON_KEYWORDS : List String :=
  ["amazon", "bestellung", "order",
   "bestellnummer", "order number",
   "artikel", "product", "item"]

/-- Keyword list `EmailConfig.HIGH_PRIORITY_KEYWORDS`. -/
def HIGH_PRIORITY_KEYWORDS : List String :=
  ["dringend", "urgent", "sofort", "immediately",
   "wichtig", "important", "asap"]

/-- The categorized catalog built by `EmailAnalyzer._load_keywords`
(dict insertion order preserved). -/
def cancellationKeywords : List (String × List String) :=
  [("primary_de", CANCELLATION_KEYWORDS_DE),
   ("primary_en", CANCELLATION_KEYWORDS_EN),
   ("amazon", AMAZON_KEYWORDS),
   ("priority", HIGH_PRIORITY_KEYWORDS)]

/-- Lower-casing of one character (`str.lower`), on the character set the
engine's patterns and catalog use. -/
def lowerChar (c : Char) : Char :=
  if c = 'Ä' then 'ä' else if c = 'Ö' then 'ö' else if c = 'Ü' then 'ü'
  else c.toLower

/-- Lower-case a character list (`str.lower`). -/
def lowerText (s : List Char) : List Char := s.map lowerChar

/-- Word character for the `\b` boundary of the keyword regexes (`\w`):
ASCII alphanumerics, underscore, and the German letters used here. -/
def isWordChar (c : Char) : Bool :=
  c.isAlphanum || c == '_' ||
    c == 'ä' || c == 'ö' || c == 'ü' || c == 'ß' ||
    c == 'Ä' || c == 'Ö' || c == 'Ü'

/-- Model of `_normalize_datetime`: `None` (and any unusable value) becomes
"now"; a tz-aware datetime keeps its wall-clock fields, which is the naive
seconds value itself. -/
def normalizeDatetime (now : Int) (dt : Option Int) : Int := dt.getD now

/-- Does the whole-word pattern for `kw` match `text` at position `p`
(`\b kw \b`, text already lower-cased by the caller)? -/
def isMatchAt (kw text : List Char) (p : Nat) : Bool :=
  kw.isPrefixOf (text.drop p) &&
  (if p = 0 then true else !isWordChar (text.getD (p - 1) ' ')) &&
  !isWordChar (text.getD (p + kw.length) ' ')

/-- Fuel-driven scan implementing `re.finditer` for the compiled keyword
pattern: at each position either emit a match and jump past it, or advance
one character.  The fuel `text.length + 1` bounds the strictly increasing
scan position. -/
def findIterAux (kw text : List Char) : Nat → Nat → List Nat
  | 0, _ => []
  | fuel + 1, p =>
    if p ≥ text.length then []
    else if isMatchAt kw text p then p :: findIterAux kw text fuel (p + kw.length)
    else findIterAux kw text fuel (p + 1)

/-- All match start positions of keyword `kw` in `text`
(`pattern.finditer(text)`). -/
def findIter (kw text : List Char) : List Nat :=
  findIterAux kw text (text.length + 1) 0

/-- Python `str.strip` on a character list. -/
def stripChars (s : List Char) : List Char :=
  ((s.dropWhile Char.isWhitespace).reverse.dropWhile Char.isWhitespace).reverse

/-- Context extraction of `_find_keyword_matches`: up to 50 characters
before and after the match, stripped. -/
def extractContext (text : List Char) (p len : Nat) : String :=
  ⟨stripChars ((text.drop (p - 50)).take (min text.length (p + len + 50) - (p - 50)))⟩

/-- Category base-confidence table of `_calculate_match_confidence`
(`dict.get(category, 0.5)`). -/
def baseConfidence (category : String) : ℚ :=
  (([("primary_de", (4 : ℚ)/5), ("primary_en", (4 : ℚ)/5),
     ("amazon", (3 : ℚ)/10), ("priority", (9 : ℚ)/10)]).lookup category).getD (1/2)

/-- Service-desk indicator substrings checked against the sender address. -/
def senderIndicators : List String := ["customer", "service", "support"]

/-- Substring test (Python `in` on strings). -/
def containsSub (a : List Char) : List Char → Bool
  | [] => a.isEmpty
  | c :: cs => a.isPrefixOf (c :: cs) || containsSub a cs

/-- Model of `_calculate_match_confidence`. -/
def calcMatchConfidence (_kw : String) (category : String) (position : Nat)
    (e : EmailData) : ℚ :=
  let base := baseConfidence category
  let b1 : ℚ := if position < e.subject.length then 1/5 else 0
  let b2 : ℚ := if e.body.length < 500 then 1/10 else 0
  let b3 : ℚ :=
    if senderIndicators.any
        (fun d => containsSub d.data (lowerText e.sender.data)) then 1/10 else 0
  min 1 (base + b1 + b2 + b3)

/-- Stable descending insertion (ties keep earlier elements first), used to
model Python's stable `list.sort(key=..., reverse=True)` and
`Counter.most_common()`. -/
def insertDesc {α : Type} (key : α → ℚ) (x : α) : List α → List α
  | [] => [x]
  | y :: ys => if key y < key x then x :: y :: ys else y :: insertDesc key x ys

/-- Stable sort, descending by `key`. -/
def sortDesc {α : Type} (key : α → ℚ) : List α → List α
  | [] => []
  | x :: xs => insertDesc key x (sortDesc key xs)

/-- Model of `_find_keyword_matches`: every keyword of every category,
whole-word case-insensitive positions, context, per-match confidence, then
the stable descending sort on confidence. -/
def findKeywordMatches (text : List Char) (e : EmailData) :
    List CancellationMatch :=
  let raw :=
    cancellationKeywords.flatMap (fun ck =>
      ck.2.flatMap (fun kw =>
        (findIter kw.data text).map (fun p =>
          { keyword := kw
            context := extractContext text p kw.data.length
            position := p
            confidence := calcMatchConfidence kw ck.1 p e
            category := ck.1 })))
  sortDesc (fun m => m.confidence) raw

/-- Does `b` occur after skipping only non-newline characters (the `.*`
of an uncompiled `re.DOTALL`-free pattern), anywhere in the text? -/
def searchFrom (b : List Char) : List Char → Bool
  | [] => b.isEmpty
  | c :: cs => b.isPrefixOf (c :: cs) || (c != '\n' && searchFrom b cs)

/-- Existence semantics of `re.search` for a pattern of the shape
`A.*B` (two literals joined by `.*`, which does not cross newlines). -/
def seqSearch2 (a b : List Char) : List Char → Bool
  | [] => a.isEmpty && searchFrom b []
  | c :: cs =>
    (a.isPrefixOf (c :: cs) && searchFrom b ((c :: cs).drop a.length)) ||
      seqSearch2 a b cs

/-- Text scanned by `_check_amazon_relation`: subject, body and sender,
lower-cased. -/
def amazonFullText (e : EmailData) : List Char :=
  lowerText (e.subject ++ " " ++ e.body ++ " " ++ e.sender).data

/-- Model of `_check_amazon_relation` with the seven compiled patterns of
`_compile_amazon_patterns` (the alternation `(de|com)` of the third pattern
is split into its two branches). -/
def checkAmazonRelation (e : EmailData) : Bool :=
  let t := amazonFullText e
  containsSub "amazon.de".data t || containsSub "amazon.com".data t ||
  seqSearch2 "amazon-".data "@amazon.de".data t ||
  seqSearch2 "amazon-".data "@amazon.com".data t ||
  seqSearch2 "bestellung".data "amazon".data t ||
  seqSearch2 "amazon".data "bestellung".data t ||
  seqSearch2 "order".data "amazon".data t ||
  seqSearch2 "amazon".data "order".data t

/-- Consume exactly `n` digits (`\d{n}`). -/
def takeDigits : Nat → List Char → Option (List Char × List Char)
  | 0, t => some ([], t)
  | _ + 1, [] => none
  | n + 1, c :: cs =>
    if c.isDigit then (takeDigits n cs).map (fun p => (c :: p.1, p.2)) else none

/-- Try pattern `(\d{3}-\d{7}-\d{7})` at the head of the text, returning
the captured group and the remaining text. -/
def tryAmazonOrder (t : List Char) : Option (String × List Char) :=
  match takeDigits 3 t with
  | none => none
  | some (d1, t1) =>
    match t1 with
    | '-' :: t2 =>
      match takeDigits 7 t2 with
      | none => none
      | some (d2, t3) =>
        match t3 with
        | '-' :: t4 =>
          match takeDigits 7 t4 with
          | none => none
          | some (d3, t5) => some (⟨d1 ++ '-' :: d2 ++ '-' :: d3⟩, t5)
        | _ => none
    | _ => none

/-- Case-insensitive literal match at the head of the text, returning the
remaining text (`re.IGNORECASE` on a lowercase literal). -/
def matchCI : List Char → List Char → Option (List Char)
  | [], t => some t
  | _ :: _, [] => none
  | p :: ps, c :: cs => if lowerChar c = p then matchCI ps cs else none

/-- Character class `[A-Z0-9-]` under `re.IGNORECASE`. -/
def isOrderChar (c : Char) : Bool := c.isAlphanum || c == '-'

/-- Try pattern `label[:\s]*([A-Z0-9-]{10,})` at the head of the text.
The classes `[:\s]` and `[A-Z0-9-]` are disjoint, so the greedy match
needs no backtracking. -/
def tryLabeled (label : List Char) (t : List Char) : Option (String × List Char) :=
  match matchCI label t with
  | none => none
  | some t1 =>
    let t2 := t1.dropWhile (fun c => c == ':' || c.isWhitespace)
    let run := t2.takeWhile isOrderChar
    if 10 ≤ run.length then some (⟨run⟩, t2.drop run.length) else none

/-- Fuel-driven `pattern.findall(text)` for a head-matcher: scan left to
right, emitting non-overlapping captures.  Every step consumes at least one
character, so `text.length` fuel suffices. -/
def findallAux (tryM : List Char → Option (String × List Char)) :
    Nat → List Char → List String
  | 0, _ => []
  | _ + 1, [] => []
  | fuel + 1, c :: cs =>
    match tryM (c :: cs) with
    | some (cap, rest) => cap :: findallAux tryM fuel rest
    | none => findallAux tryM fuel cs

/-- The six compiled patterns of `_compile_order_patterns` (the Amazon
pattern appears twice in the source, once labelled DE and once US). -/
def orderPatternList : List (List Char → Option (String × List Char)) :=
  [tryAmazonOrder, tryAmazonOrder,
   tryLabeled "bestellnummer".data, tryLabeled "order number".data,
   tryLabeled "auftragsnummer".data, tryLabeled "ref".data]

/-- Model of `_extract_order_numbers`: run every pattern, deduplicate
(`list(set(...))`, modelled keeping first occurrences), keep strings of
length at least 8 containing a digit. -/
def extractOrderNumbers (text : List Char) : List String :=
  let order_numbers :=
    orderPatternList.flatMap (fun pm => findallAux pm text.length text)
  let unique_orders := order_numbers.dedup
  unique_orders.filter (fun o => 8 ≤ o.length && o.data.any Char.isDigit)

/-- One step of the weighted-sum loop of `_calculate_confidence_score`:
`weight = 1/(i+1)`, accumulating `(weighted_score, total_weight)`. -/
def weightedStep (p : ℚ × ℚ) (im : Nat × ℚ) : ℚ × ℚ :=
  (p.1 + im.2 * (1 / ((im.1 : ℚ) + 1)), p.2 + 1 / ((im.1 : ℚ) + 1))

/-- The weighted-sum loop of `_calculate_confidence_score` over the top
matches: accumulate `(weighted_score, total_weight)` with
`weight = 1/(i+1)`, then `weighted_score / total_weight if total_weight > 0
else 0.0`. -/
def baseScore (cs : List ℚ) : ℚ :=
  let acc := cs.enum.foldl weightedStep (0, 0)
  if 0 < acc.2 then acc.1 / acc.2 else 0

/-- Model of `_calculate_confidence_score`. -/
def calcConfidenceScore (ms : List CancellationMatch) (e : EmailData)
    (now : Int) : ℚ :=
  if ms.isEmpty then 0
  else
    let top := ms.take 5
    let base := baseScore (top.map (fun m => m.confidence))
    let uniqueKeywords := (ms.map (fun m => m.keyword)).dedup.length
    let bonus : ℚ :=
      (if 2 < uniqueKeywords then 1/10 else 0) +
      (if checkAmazonRelation e then 3/20 else 0) +
      (if (extractOrderNumbers (e.subject ++ " " ++ e.body).data).isEmpty
        then 0 else 1/10) +
      (if (now - normalizeDatetime now e.raw_date).fdiv 86400 ≤ 7
        then 1/20 else 0)
    min 1 (base + bonus)

/-- Model of `_determine_priority_level`. -/
def determinePriorityLevel (ms : List CancellationMatch) (confidence : ℚ) :
    String :=
  let priorityMatches := ms.filter (fun m => m.category == "priority")
  if priorityMatches ≠ [] ∨ (4 : ℚ)/5 ≤ confidence then "hoch"
  else if (1 : ℚ)/2 ≤ confidence then "mittel"
  else "niedrig"

/-- Model of `_analyze_single_email` (total: with well-typed fields no
exception can be raised here). -/
def analyzeSingleEmail (e : EmailData) (now : Int) : AnalysisResult :=
  let full_text := lowerText (e.subject ++ " " ++ e.body).data
  let ms := findKeywordMatches full_text e
  let confidence_score := calcConfidenceScore ms e now
  let is_cancellation : Bool := decide ((3 : ℚ)/10 ≤ confidence_score)
  let priority_level := determinePriorityLevel ms confidence_score
  { email_data := e
    is_cancellation := is_cancellation
    «matches» := ms
    confidence_score := confidence_score
    priority_level := priority_level
    amazon_related := checkAmazonRelation e
    order_numbers := extractOrderNumbers full_text }

/-- Increment of an insertion-ordered frequency map (`Counter[key] += 1`:
bump an existing entry in place, else append a new entry). -/
def counterAdd {α : Type} [DecidableEq α] : List (α × Nat) → α → List (α × Nat)
  | [], k => [(k, 1)]
  | (a, n) :: rest, k =>
    if a = k then (a, n + 1) :: rest else (a, n) :: counterAdd rest k

/-- Model of the `statistics` dict built by `analyze_cancellation_requests`
(the derived `cancellation_rate` is added separately at the end, as in the
source). -/
structure Statistics where
  total_emails : Nat
  cancellation_count : Nat
  amazon_related : Nat
  high_priority : Nat
  keyword_distribution : List (String × Nat)
  sender_distribution : List (String × Nat)
  date_distribution : List (Int × Nat)
deriving DecidableEq, Repr

/-- Initial statistics: `total_emails` is fixed to the batch length before
any message is processed. -/
def initStatistics (n : Nat) : Statistics := ⟨n, 0, 0, 0, [], [], []⟩

/-- Sender-domain key: the part after the last `@`, or `unknown`. -/
def senderDomain (sender : String) : String :=
  if sender.contains '@' then (sender.splitOn "@").getLastD "" else "unknown"

/-- Calendar-day key of a timestamp.  The source renders it as a
`%Y-%m-%d` string; the day number is an injective stand-in for that
string. -/
def dayNumber (t : Int) : Int := t.fdiv 86400

/-- Model of `_update_statistics`.  The returned flag is `false` exactly
when the Python code raises: `raw_date.strftime` on a missing date throws
`AttributeError` at the final date-distribution update, after every other
field has already been updated in place. -/
def updateStatistics (s : Statistics) (a : AnalysisResult) : Statistics × Bool :=
  let s1 := if a.is_cancellation
    then { s with cancellation_count := s.cancellation_count + 1 } else s
  let s2 := if a.amazon_related
    then { s1 with amazon_related := s1.amazon_related + 1 } else s1
  let s3 := if a.priority_level = "hoch"
    then { s2 with high_priority := s2.high_priority + 1 } else s2
  let kd := List.foldl (fun d m => counterAdd d m.keyword)
    s3.keyword_distribution a.«matches»
  let s4 := { s3 with keyword_distribution := kd }
  let sd := counterAdd s4.sender_distribution (senderDomain a.email_data.sender)
  let s5 := { s4 with sender_distribution := sd }
  match a.email_data.raw_date with
  | some t =>
    ({ s5 with date_distribution := counterAdd s5.date_distribution (dayNumber t) },
     true)
  | none => (s5, false)

/-- Model of one entry of `cancellation_emails`
(`_format_cancellation_result`; the confidence score is rendered with two
decimals in the source, kept as the exact value here). -/
structure FormattedCancellation where
  absender : String
  betreff : String
  datum : String
  gefundene_schluesselwoerter : String
  body_preview : String
  confidence_score : ℚ
  prioritaet : String
  amazon_bezug : String
  bestellnummern : String
  match_count : Nat
deriving DecidableEq, Repr

/-- Model of `_format_cancellation_result` (`', '.join(set(...))` of the
top-5 keywords is modelled keeping first occurrences). -/
def formatCancellationResult (a : AnalysisResult) : FormattedCancellation :=
  { absender := a.email_data.sender
    betreff := a.email_data.subject
    datum := a.email_data.date
    gefundene_schluesselwoerter :=
      String.intercalate ", " ((a.«matches».take 5).map (fun m => m.keyword)).dedup
    body_preview :=
      if 200 < a.email_data.body.length
      then (⟨a.email_data.body.data.take 200⟩ : String) ++ "..."
      else a.email_data.body
    confidence_score := a.confidence_score
    prioritaet := a.priority_level
    amazon_bezug := if a.amazon_related then "Ja" else "Nein"
    bestellnummern :=
      if a.order_numbers.isEmpty then "Keine gefunden"
      else String.intercalate ", " a.order_numbers
    match_count := a.«matches».length }

/-- Model of `_format_email_summary`. -/
structure EmailSummary where
  id : String
  subject : String
  sender : String
  date : String
  body_length : Nat
deriving DecidableEq, Repr

/-- Build one plain summary row. -/
def formatEmailSummary (e : EmailData) : EmailSummary :=
  ⟨e.id, e.subject, e.sender, e.date, e.body.length⟩

/-- The dict returned by `analyze_cancellation_requests`. -/
structure BatchOutput where
  cancellation_emails : List FormattedCancellation
  all_emails : List EmailSummary
  statistics : Statistics
  cancellation_rate : ℚ
  timestamp : Int
  analysis_results : List AnalysisResult
deriving DecidableEq, Repr

/-- Body of the per-message loop of `analyze_cancellation_requests`.  The
result is appended before `_update_statistics` runs; when the statistics
update raises (flag `false`) the `except` branch fires: the already
appended result stays, the cancellation entry is not added, and the loop
continues. -/
def analyzeStep (now : Int)
    (st : List AnalysisResult × List FormattedCancellation × Statistics)
    (e : EmailData) :
    List AnalysisResult × List FormattedCancellation × Statistics :=
  let a := analyzeSingleEmail e now
  let results := st.1 ++ [a]
  let su := updateStatistics st.2.2 a
  if su.2 then
    if a.is_cancellation then (results, st.2.1 ++ [formatCancellationResult a], su.1)
    else (results, st.2.1, su.1)
  else (results, st.2.1, su.1)

/-- Model of the batch entry point `analyze_cancellation_requests`. -/
def analyzeCancellationRequests (emails : List EmailData) (now : Int) :
    BatchOutput :=
  let folded := emails.foldl (analyzeStep now) ([], [], initStatistics emails.length)
  let stats := folded.2.2
  { cancellation_emails := folded.2.1
    all_emails := folded.1.map (fun r => formatEmailSummary r.email_data)
    statistics := stats
    cancellation_rate :=
      if 0 < stats.total_emails
      then (stats.cancellation_count : ℚ) / (stats.total_emails : ℚ) * 100
      else 0
    timestamp := now
    analysis_results := folded.1 }

/-- Weekday names as produced by `strftime('%A')`; day 0 of the epoch was
a Thursday. -/
def weekdayNames : List String :=
  ["Thursday", "Friday", "Saturday", "Sunday", "Monday", "Tuesday", "Wednesday"]

/-- The `%A` weekday name of a timestamp. -/
def weekdayName (t : Int) : String :=
  weekdayNames.getD ((dayNumber t).fmod 7).toNat "Thursday"

/-- The `datetime.hour` of a timestamp. -/
def hourOf (t : Int) : Int := (t.fmod 86400).fdiv 3600

/-- A `Counter(iterable)`: fold the keys into an insertion-ordered
frequency map. -/
def buildCounter {α : Type} [DecidableEq α] (keys : List α) : List (α × Nat) :=
  keys.foldl counterAdd []

/-- One comparison step of `heapq.nlargest(1, items, key=count)`: a later
entry replaces the current best only when strictly greater, so the first
encountered maximum wins. -/
def mostCommonPick {α : Type} (b q : α × Nat) : α × Nat :=
  if b.2 < q.2 then q else b

/-- Model of `Counter.most_common(1)[0]` (`none` on an empty counter). -/
def mostCommon1 {α : Type} : List (α × Nat) → Option (α × Nat)
  | [] => none
  | x :: xs => some (xs.foldl mostCommonPick x)

/-- Model of `dict(counter.most_common())`: entries sorted by count,
descending, stable. -/
def sortByCountDesc {α : Type} (l : List (α × Nat)) : List (α × Nat) :=
  sortDesc (fun p => (p.2 : ℚ)) l

/-- The timestamps feeding `analyze_trends`: results classified as
cancellations whose `raw_date` is present (normalization of a present
naive timestamp is the identity). -/
def qualifyingDates (results : List AnalysisResult) : List Int :=
  results.filterMap
    (fun r => if r.is_cancellation then r.email_data.raw_date else none)

/-- The trend dict of `analyze_trends`; the empty dict returned on no
qualifying data is modelled as `none`. -/
structure TrendOutput where
  daily_trend : List (Int × Nat)
  weekday_pattern : List (String × Nat)
  hourly_pattern : List (Int × Nat)
  peak_day : Option (String × Nat)
  peak_hour : Option (Int × Nat)
deriving DecidableEq, Repr

/-- Model of `analyze_trends`. -/
def analyzeTrends (results : List AnalysisResult) : Option TrendOutput :=
  if results.isEmpty then none
  else
    let dates := qualifyingDates results
    if dates.isEmpty then none
    else
      let dateCounts := buildCounter (dates.map dayNumber)
      let weekdayCounts := buildCounter (dates.map weekdayName)
      let hourCounts := buildCounter (dates.map hourOf)
      some
        { daily_trend := sortByCountDesc dateCounts
          weekday_pattern := sortByCountDesc weekdayCounts
          hourly_pattern := sortByCountDesc hourCounts
          peak_day := mostCommon1 weekdayCounts
          peak_hour := mostCommon1 hourCounts }

/-- Weight list named by the spec: the i-th (1-indexed) of `k` entries
weighs `1/i`. -/
def specTopWeights (k : Nat) : List ℚ :=
  (List.range k).map (fun i => 1 / ((i : ℚ) + 1))

/-- Weighted mean named by the spec:
`(Σ confidence_i × weight_i) / (Σ weight_i)`. -/
def specWeightedMean (confs : List ℚ) : ℚ :=
  (List.zipWith (fun c w => c * w) confs (specTopWeights confs.length)).sum /
    (specTopWeights confs.length).sum

/-- Message-level score exactly as claim C3 words it: rank-decayed weighted
mean of the top five matches plus the four bonus terms, the recency bonus
firing when the normalized timestamp lies within 7 days of now (in either
direction), capped at 1. -/
def specMessageScore (ms : List CancellationMatch) (e : EmailData)
    (now : Int) : ℚ :=
  let mean := specWeightedMean ((ms.take 5).map (fun m => m.confidence))
  let bonus : ℚ :=
    (if 2 < (ms.map (fun m => m.keyword)).dedup.length then 1/10 else 0) +
    (if checkAmazonRelation e then 3/20 else 0) +
    (if (extractOrderNumbers (e.subject ++ " " ++ e.body).data).isEmpty
      then 0 else 1/10) +
    (if (now - normalizeDatetime now e.raw_date).natAbs ≤ 7 * 86400
      then 1/20 else 0)
  min 1 (mean + bonus)

/-- Message-level score with the recency clause amended to what the code
computes: the floored day difference `(now - t) // 86400` is at most 7,
i.e. the timestamp is later than 8 days before now (any future timestamp
included). -/
def specMessageScoreAmended (ms : List CancellationMatch) (e : EmailData)
    (now : Int) : ℚ :=
  let mean := specWeightedMean ((ms.take 5).map (fun m => m.confidence))
  let bonus : ℚ :=
    (if 2 < (ms.map (fun m => m.keyword)).dedup.length then 1/10 else 0) +
    (if checkAmazonRelation e then 3/20 else 0) +
    (if (extractOrderNumbers (e.subject ++ " " ++ e.body).data).isEmpty
      then 0 else 1/10) +
    (if (now - normalizeDatetime now e.raw_date).fdiv 86400 ≤ 7
      then 1/20 else 0)
  min 1 (mean + bonus)

/-- An entry of a frequency list is the single highest-count entry with
ties broken by first-encountered insertion order: everything before it
counts strictly less, nothing counts more. -/
def IsFirstMax {α : Type} (p : α × Nat) (l : List (α × Nat)) : Prop :=
  ∃ l₁ l₂, l = l₁ ++ p :: l₂ ∧ (∀ q ∈ l₁, q.2 < p.2) ∧ (∀ q ∈ l, q.2 ≤ p.2)

/-- Concrete message without any catalog keyword. -/
def eNoKeyword : EmailData :=
  { id := "1", subject := "hallo", sender := "x", date := "",
    body := "", raw_date := some 0, message_id := "" }

/-- Concrete message whose subject is one German cancellation keyword. -/
def eStorno : EmailData :=
  { id := "2", subject := "storno", sender := "x", date := "",
    body := "", raw_date := some 0, message_id := "" }

/-- Concrete keyword-free message with a missing timestamp. -/
def eMissingDate : EmailData :=
  { id := "3", subject := "hallo", sender := "x", date := "",
    body := "", raw_date := none, message_id := "" }

/-- Concrete cancellation message with a missing timestamp. -/
def eStornoNoDate : EmailData :=
  { id := "4", subject := "storno", sender := "x", date := "",
    body := "", raw_date := none, message_id := "" }

/-- Concrete cancellation message dated 7.5 days (648000 seconds) before
the reference time 0. -/
def eRecency : EmailData :=
  { id := "5", subject := "", sender := "x", date := "",
    body := "storno", raw_date := some (-648000), message_id := "" }

/-- Concrete message carrying a labelled order number. -/
def eRef : EmailData :=
  { id := "6", subject := "", sender := "x", date := "",
    body := "ref 1234567890", raw_date := some 0, message_id := "" }

/-- The single keyword match the analyzer finds in `eStornoNoDate`. -/
def mStornoNoDate : CancellationMatch :=
  { keyword := "storno", context := "storno", position := 0,
    confidence := calcMatchConfidence "storno" "primary_de" 0 eStornoNoDate,
    category := "primary_de" }

/-- The single keyword match the analyzer finds in `eRecency`. -/
def mRecency : CancellationMatch :=
  { keyword := "storno", context := "storno", position := 1,
    confidence := calcMatchConfidence "storno" "primary_de" 1 eRecency,
    category := "primary_de" }

/-- A directly constructed analysis result qualifying for trend analysis. -/
def rTrend : AnalysisResult :=
  { email_data := eStorno, is_cancellation := true, «matches» := [],
    confidence_score := 1, priority_level := "hoch", amazon_related := false,
    order_numbers := [] }

theorem mem_insertDesc {α : Type} (key : α → ℚ) (x a : α) (l : List α) :
    a ∈ insertDesc key x l ↔ a = x ∨ a ∈ l := by
  induction l with
  | nil => simp [insertDesc]
  | cons y ys ih =>
    simp only [insertDesc]
    split
    · simp [List.mem_cons]
    · simp [List.mem_cons, ih]
      tauto

theorem mem_sortDesc {α : Type} (key : α → ℚ) (a : α) (l : List α) :
    a ∈ sortDesc key l ↔ a ∈ l := by
  induction l with
  | nil => simp [sortDesc]
  | cons y ys ih => simp [sortDesc, mem_insertDesc, ih]

theorem baseConfidence_bounds (c : String) :
    3/10 ≤ baseConfidence c ∧ baseConfidence c ≤ 9/10 := by
  unfold baseConfidence
  simp only [List.lookup]
  repeat' split
  all_goals simp_all
  all_goals norm_num

theorem calcMatchConfidence_bounds (kw category : String) (p : Nat)
    (e : EmailData) :
    3/10 ≤ calcMatchConfidence kw category p e ∧
      calcMatchConfidence kw category p e ≤ 1 := by
  obtain ⟨h1, h2⟩ := baseConfidence_bounds category
  unfold calcMatchConfidence
  refine ⟨le_min (by norm_num) ?_, min_le_left _ _⟩
  have b1 : (0:ℚ) ≤ if p < kw.length then 1/5 else 0 := by split <;> norm_num
  have b2 : (0:ℚ) ≤ if p < e.subject.length then 1/5 else 0 := by split <;> norm_num
  have b3 : (0:ℚ) ≤ if e.body.length < 500 then 1/10 else 0 := by split <;> norm_num
  have b4 : (0:ℚ) ≤ if senderIndicators.any
      (fun d => containsSub d.data (lowerText e.sender.data)) = true
      then 1/10 else 0 := by split <;> norm_num
  linarith

theorem confidence_of_mem_findKeywordMatches (t : List Char) (e : EmailData)
    (m : CancellationMatch) (hm : m ∈ findKeywordMatches t e) :
    3/10 ≤ m.confidence ∧ m.confidence ≤ 1 := by
  unfold findKeywordMatches at hm
  rw [mem_sortDesc] at hm
  simp only [List.mem_flatMap, List.mem_map] at hm
  obtain ⟨ck, _, kw, _, p, _, rfl⟩ := hm
  exact calcMatchConfidence_bounds kw ck.1 p e


theorem baseScore_bounds (cs : List ℚ) (hne : cs ≠ []) (hlen : cs.length ≤ 5)
    (hb : ∀ c ∈ cs, 3/10 ≤ c ∧ c ≤ 1) :
    3/10 ≤ baseScore cs ∧ baseScore cs ≤ 1 := by
  rcases cs with _ | ⟨c1, _ | ⟨c2, _ | ⟨c3, _ | ⟨c4, _ | ⟨c5, _ | ⟨c6, rest⟩⟩⟩⟩⟩⟩
  · exact absurd rfl hne
  · obtain ⟨h1a, h1b⟩ := hb c1 (by simp)
    simp only [baseScore, List.enum, List.enumFrom, List.foldl, weightedStep]
    norm_num
    constructor <;> linarith
  · obtain ⟨h1a, h1b⟩ := hb c1 (by simp)
    obtain ⟨h2a, h2b⟩ := hb c2 (by simp)
    simp only [baseScore, List.enum, List.enumFrom, List.foldl, weightedStep]
    norm_num
    rw [le_div_iff₀ (by norm_num), div_le_one (by norm_num)]
    constructor <;> linarith
  · obtain ⟨h1a, h1b⟩ := hb c1 (by simp)
    obtain ⟨h2a, h2b⟩ := hb c2 (by simp)
    obtain ⟨h3a, h3b⟩ := hb c3 (by simp)
    simp only [baseScore, List.enum, List.enumFrom, List.foldl, weightedStep]
    norm_num
    rw [le_div_iff₀ (by norm_num), div_le_one (by norm_num)]
    constructor <;> linarith
  · obtain ⟨h1a, h1b⟩ := hb c1 (by simp)
    obtain ⟨h2a, h2b⟩ := hb c2 (by simp)
    obtain ⟨h3a, h3b⟩ := hb c3 (by simp)
    obtain ⟨h4a, h4b⟩ := hb c4 (by simp)
    simp only [baseScore, List.enum, List.enumFrom, List.foldl, weightedStep]
    norm_num
    rw [le_div_iff₀ (by norm_num), div_le_one (by norm_num)]
    constructor <;> linarith
  · obtain ⟨h1a, h1b⟩ := hb c1 (by simp)
    obtain ⟨h2a, h2b⟩ := hb c2 (by simp)
    obtain ⟨h3a, h3b⟩ := hb c3 (by simp)
    obtain ⟨h4a, h4b⟩ := hb c4 (by simp)
    obtain ⟨h5a, h5b⟩ := hb c5 (by simp)
    simp only [baseScore, List.enum, List.enumFrom, List.foldl, weightedStep]
    norm_num
    rw [le_div_iff₀ (by norm_num), div_le_one (by norm_num)]
    constructor <;> linarith
  · simp at hlen

theorem baseScore_eq_specMean (cs : List ℚ) (hlen : cs.length ≤ 5) :
    baseScore cs = specWeightedMean cs := by
  rcases cs with _ | ⟨c1, _ | ⟨c2, _ | ⟨c3, _ | ⟨c4, _ | ⟨c5, _ | ⟨c6, rest⟩⟩⟩⟩⟩⟩
  · simp [baseScore, specWeightedMean, specTopWeights, List.enum, List.foldl, weightedStep]
  · simp only [baseScore, specWeightedMean, specTopWeights, List.enum, List.enumFrom,
      List.foldl, weightedStep, List.range, List.range.loop, List.map, List.zipWith,
      List.sum_cons, List.sum_nil, List.length]
    norm_num
  · simp only [baseScore, specWeightedMean, specTopWeights, List.enum, List.enumFrom,
      List.foldl, weightedStep, List.range, List.range.loop, List.map, List.zipWith,
      List.sum_cons, List.sum_nil, List.length]
    norm_num
    try ring_nf
  · simp only [baseScore, specWeightedMean, specTopWeights, List.enum, List.enumFrom,
      List.foldl, weightedStep, List.range, List.range.loop, List.map, List.zipWith,
      List.sum_cons, List.sum_nil, List.length]
    norm_num
    try ring_nf
  · simp only [baseScore, specWeightedMean, specTopWeights, List.enum, List.enumFrom,
      List.foldl, weightedStep, List.range, List.range.loop, List.map, List.zipWith,
      List.sum_cons, List.sum_nil, List.length]
    norm_num
    try ring_nf
  · simp only [baseScore, specWeightedMean, specTopWeights, List.enum, List.enumFrom,
      List.foldl, weightedStep, List.range, List.range.loop, List.map, List.zipWith,
      List.sum_cons, List.sum_nil, List.length]
    norm_num
    try ring_nf
  · simp at hlen


theorem ite_nonneg_q (c : Prop) [Decidable c] {a b : ℚ} (ha : 0 ≤ a)
    (hb : 0 ≤ b) : 0 ≤ if c then a else b := by
  split <;> assumption

/-- C1: for every input message, the AnalysisResult confidence score produced
by the analyzer lies in [0,1], and it is exactly 0 when the message has no
keyword matches. -/
theorem claim_C1_confidence_in_unit_interval (e : EmailData) (now : Int) :
    0 ≤ (analyzeSingleEmail e now).confidence_score ∧
    (analyzeSingleEmail e now).confidence_score ≤ 1 ∧
    ((analyzeSingleEmail e now).«matches» = [] →
      (analyzeSingleEmail e now).confidence_score = 0) := by
  have hsc : (analyzeSingleEmail e now).confidence_score =
      calcConfidenceScore
        (findKeywordMatches (lowerText (e.subject ++ " " ++ e.body).data) e) e now := rfl
  have hms : (analyzeSingleEmail e now).«matches» =
      findKeywordMatches (lowerText (e.subject ++ " " ++ e.body).data) e := rfl
  rw [hsc, hms]
  set ms := findKeywordMatches (lowerText (e.subject ++ " " ++ e.body).data) e with hms0
  by_cases h : ms = []
  · simp [calcConfidenceScore, h]
  · have hie : ms.isEmpty = false := by
      simp [List.isEmpty_iff, h]
    set cs := (ms.take 5).map (fun m => m.confidence) with hcs0
    have hcs_ne : cs ≠ [] := by
      rcases ms with _ | ⟨m, rest⟩
      · exact absurd rfl h
      · simp [hcs0, List.take]
    have hcs_len : cs.length ≤ 5 := by
      simp only [hcs0, List.length_map, List.length_take]
      omega
    have hcs_b : ∀ c ∈ cs, 3/10 ≤ c ∧ c ≤ 1 := by
      intro c hc
      rw [hcs0] at hc
      obtain ⟨m, hm, rfl⟩ := List.mem_map.mp hc
      exact confidence_of_mem_findKeywordMatches _ _ _
        (List.take_subset 5 ms hm)
    obtain ⟨hb1, hb2⟩ := baseScore_bounds cs hcs_ne hcs_len hcs_b
    simp only [calcConfidenceScore, hie, Bool.false_eq_true, if_false]
    refine ⟨?_, ?_, ?_⟩
    · apply le_min (by norm_num)
      have hB : (0:ℚ) ≤
          (if 2 < (ms.map (fun m => m.keyword)).dedup.length then 1/10 else 0) +
          (if checkAmazonRelation e = true then 3/20 else 0) +
          (if (extractOrderNumbers (e.subject ++ " " ++ e.body).data).isEmpty = true
            then 0 else 1/10) +
          (if (now - normalizeDatetime now e.raw_date).fdiv 86400 ≤ 7
            then 1/20 else 0) := by
        have i1 := ite_nonneg_q (2 < (ms.map (fun m => m.keyword)).dedup.length)
          (by norm_num : (0:ℚ) ≤ 1/10) le_rfl
        have i2 := ite_nonneg_q (checkAmazonRelation e = true)
          (by norm_num : (0:ℚ) ≤ 3/20) le_rfl
        have i3 := ite_nonneg_q
          ((extractOrderNumbers (e.subject ++ " " ++ e.body).data).isEmpty = true)
          le_rfl (by norm_num : (0:ℚ) ≤ 1/10)
        have i4 := ite_nonneg_q ((now - normalizeDatetime now e.raw_date).fdiv 86400 ≤ 7)
          (by norm_num : (0:ℚ) ≤ 1/20) le_rfl
        linarith
      linarith
    · exact min_le_left _ _
    · intro h2
      exact absurd h2 h


/-- C2: for every input message, is_cancellation holds exactly when the
confidence score is at least the fixed threshold 0.30. -/
theorem claim_C2_threshold (e : EmailData) (now : Int) :
    (analyzeSingleEmail e now).is_cancellation = true ↔
      3/10 ≤ (analyzeSingleEmail e now).confidence_score := by
  show decide ((3:ℚ)/10 ≤ (analyzeSingleEmail e now).confidence_score) = true ↔ _
  exact decide_eq_true_iff

/-- C4: the priority level is high when some match is in the high-priority
category or the score is at least 0.80, else medium when the score is at
least 0.50, else low (the source spells the levels hoch/mittel/niedrig). -/
theorem claim_C4_priority_rule (e : EmailData) (now : Int) :
    (analyzeSingleEmail e now).priority_level =
      if (∃ m ∈ (analyzeSingleEmail e now).«matches», m.category = "priority") ∨
          4/5 ≤ (analyzeSingleEmail e now).confidence_score then "hoch"
      else if 1/2 ≤ (analyzeSingleEmail e now).confidence_score then "mittel"
      else "niedrig" := by
  have h0 : (analyzeSingleEmail e now).priority_level =
      determinePriorityLevel (analyzeSingleEmail e now).«matches»
        (analyzeSingleEmail e now).confidence_score := rfl
  rw [h0]
  unfold determinePriorityLevel
  have hiff : ((analyzeSingleEmail e now).«matches».filter
        (fun m => m.category == "priority") ≠ []) ↔
      ∃ m ∈ (analyzeSingleEmail e now).«matches», m.category = "priority" := by
    rw [ne_eq, List.filter_eq_nil_iff]
    push_neg
    simp
  simp only [hiff]

theorem extractOrderNumbers_valid (t : List Char) :
    (extractOrderNumbers t).Nodup ∧
      ∀ o ∈ extractOrderNumbers t,
        8 ≤ o.length ∧ o.data.any Char.isDigit = true := by
  constructor
  · exact (List.nodup_dedup _).filter _
  · intro o ho
    have h := List.of_mem_filter ho
    simpa using h

/-- C5: the extracted order identifiers of every analysis contain no
duplicates, and each has length at least 8 and contains a digit. -/
theorem claim_C5_order_numbers (e : EmailData) (now : Int) :
    ((analyzeSingleEmail e now).order_numbers).Nodup ∧
      ∀ o ∈ (analyzeSingleEmail e now).order_numbers,
        8 ≤ o.length ∧ o.data.any Char.isDigit = true :=
  extractOrderNumbers_valid _

/-- C9: any message with at least one keyword match scores at least 0.3 and
is classified as a cancellation, and no score lies strictly between 0 and
0.3. -/
theorem claim_C9_threshold_reachability (e : EmailData) (now : Int) :
    ((analyzeSingleEmail e now).«matches» ≠ [] →
      3/10 ≤ (analyzeSingleEmail e now).confidence_score ∧
        (analyzeSingleEmail e now).is_cancellation = true) ∧
    ((analyzeSingleEmail e now).confidence_score = 0 ∨
      3/10 ≤ (analyzeSingleEmail e now).confidence_score) := by
  have hsc : (analyzeSingleEmail e now).confidence_score =
      calcConfidenceScore
        (findKeywordMatches (lowerText (e.subject ++ " " ++ e.body).data) e) e now := rfl
  have hms : (analyzeSingleEmail e now).«matches» =
      findKeywordMatches (lowerText (e.subject ++ " " ++ e.body).data) e := rfl
  have hdec : (analyzeSingleEmail e now).is_cancellation = true ↔
      3/10 ≤ (analyzeSingleEmail e now).confidence_score := by
    show decide ((3:ℚ)/10 ≤ (analyzeSingleEmail e now).confidence_score) = true ↔ _
    exact decide_eq_true_iff
  by_cases h : (analyzeSingleEmail e now).«matches» = []
  · constructor
    · intro h2
      exact absurd h h2
    · left
      rw [hms] at h
      rw [hsc, h]
      simp [calcConfidenceScore]
  · have hlow : 3/10 ≤ (analyzeSingleEmail e now).confidence_score := by
      rw [hsc]
      rw [hms] at h
      set ms := findKeywordMatches (lowerText (e.subject ++ " " ++ e.body).data) e with hms0
      have hie : ms.isEmpty = false := by
        simp [List.isEmpty_iff, h]
      set cs := (ms.take 5).map (fun m => m.confidence) with hcs0
      have hcs_ne : cs ≠ [] := by
        rcases ms with _ | ⟨m, rest⟩
        · exact absurd rfl h
        · simp [hcs0, List.take]
      have hcs_len : cs.length ≤ 5 := by
        simp only [hcs0, List.length_map, List.length_take]
        omega
      have hcs_b : ∀ c ∈ cs, 3/10 ≤ c ∧ c ≤ 1 := by
        intro c hc
        rw [hcs0] at hc
        obtain ⟨m, hm, rfl⟩ := List.mem_map.mp hc
        exact confidence_of_mem_findKeywordMatches _ _ _
          (List.take_subset 5 ms hm)
      obtain ⟨hb1, hb2⟩ := baseScore_bounds cs hcs_ne hcs_len hcs_b
      simp only [calcConfidenceScore, hie, Bool.false_eq_true, if_false]
      apply le_min (by norm_num)
      have i1 := ite_nonneg_q (2 < (ms.map (fun m => m.keyword)).dedup.length)
        (by norm_num : (0:ℚ) ≤ 1/10) le_rfl
      have i2 := ite_nonneg_q (checkAmazonRelation e = true)
        (by norm_num : (0:ℚ) ≤ 3/20) le_rfl
      have i3 := ite_nonneg_q
        ((extractOrderNumbers (e.subject ++ " " ++ e.body).data).isEmpty = true)
        le_rfl (by norm_num : (0:ℚ) ≤ 1/10)
      have i4 := ite_nonneg_q ((now - normalizeDatetime now e.raw_date).fdiv 86400 ≤ 7)
        (by norm_num : (0:ℚ) ≤ 1/20) le_rfl
      linarith
    exact ⟨fun _ => ⟨hlow, hdec.mpr hlow⟩, Or.inr hlow⟩

/-- C3 (amended): for every message with at least one keyword match, the
confidence score equals the rank-decayed weighted mean of the top 5 matches
plus the four bonus terms, where the recency bonus fires exactly when the
floored day difference (now minus timestamp, floor-divided by 86400) is at
most 7 - not when the timestamp is within 7 days of now in absolute
distance, which is what the claim as stated asserts. -/
theorem claim_C3_amended (e : EmailData) (now : Int)
    (h : (analyzeSingleEmail e now).«matches» ≠ []) :
    (analyzeSingleEmail e now).confidence_score =
      specMessageScoreAmended (analyzeSingleEmail e now).«matches» e now := by
  have hsc : (analyzeSingleEmail e now).confidence_score =
      calcConfidenceScore (analyzeSingleEmail e now).«matches» e now := rfl
  rw [hsc]
  set ms := (analyzeSingleEmail e now).«matches» with hms0
  have hie : ms.isEmpty = false := by
    simp [List.isEmpty_iff, h]
  have hlen : ((ms.take 5).map (fun m => m.confidence)).length ≤ 5 := by
    simp only [List.length_map, List.length_take]
    omega
  simp only [calcConfidenceScore, specMessageScoreAmended, hie, Bool.false_eq_true,
    if_false]
  rw [baseScore_eq_specMean _ hlen]


theorem updateStatistics_fields (s : Statistics) (a : AnalysisResult) :
    (updateStatistics s a).1.total_emails = s.total_emails ∧
    (updateStatistics s a).1.cancellation_count =
      s.cancellation_count + (if a.is_cancellation then 1 else 0) ∧
    (updateStatistics s a).1.amazon_related =
      s.amazon_related + (if a.amazon_related then 1 else 0) ∧
    (updateStatistics s a).1.high_priority =
      s.high_priority + (if a.priority_level = "hoch" then 1 else 0) := by
  unfold updateStatistics
  rcases h : a.email_data.raw_date with _ | t <;> split_ifs <;> simp_all

theorem analyzeStep_components (now : Int)
    (st : List AnalysisResult × List FormattedCancellation × Statistics)
    (e : EmailData) :
    (analyzeStep now st e).1 = st.1 ++ [analyzeSingleEmail e now] ∧
    (analyzeStep now st e).2.2 =
      (updateStatistics st.2.2 (analyzeSingleEmail e now)).1 := by
  simp only [analyzeStep]
  split_ifs <;> simp

theorem foldl_analyzeStep_spec (now : Int) :
    ∀ (emails : List EmailData)
      (st : List AnalysisResult × List FormattedCancellation × Statistics),
      (emails.foldl (analyzeStep now) st).1 =
          st.1 ++ emails.map (fun e => analyzeSingleEmail e now) ∧
      (emails.foldl (analyzeStep now) st).2.2.total_emails =
          st.2.2.total_emails ∧
      (emails.foldl (analyzeStep now) st).2.2.cancellation_count =
          st.2.2.cancellation_count +
            (emails.map (fun e => analyzeSingleEmail e now)).countP
              (fun a => a.is_cancellation) ∧
      (emails.foldl (analyzeStep now) st).2.2.amazon_related =
          st.2.2.amazon_related +
            (emails.map (fun e => analyzeSingleEmail e now)).countP
              (fun a => a.amazon_related) ∧
      (emails.foldl (analyzeStep now) st).2.2.high_priority =
          st.2.2.high_priority +
            (emails.map (fun e => analyzeSingleEmail e now)).countP
              (fun a => a.priority_level == "hoch") := by
  intro emails
  induction emails with
  | nil => simp
  | cons e es ih =>
    intro st
    simp only [List.foldl_cons, List.map_cons, List.countP_cons]
    obtain ⟨h1, h2⟩ := analyzeStep_components now st e
    obtain ⟨u1, u2, u3, u4⟩ :=
      updateStatistics_fields st.2.2 (analyzeSingleEmail e now)
    obtain ⟨i1, i2, i3, i4, i5⟩ := ih (analyzeStep now st e)
    refine ⟨?_, ?_, ?_, ?_, ?_⟩
    · rw [i1, h1]
      simp
    · rw [i2, h2, u1]
    · rw [i3, h2, u2]
      omega
    · rw [i4, h2, u3]
      omega
    · rw [i5, h2, u4]
      simp only [beq_iff_eq]
      omega


/-- C6: for every batch, cancellation_count equals the number of messages
classified as cancellations, cancellation_rate equals count/total*100
(0 for an empty batch), and none of the three aggregate counts exceeds the
total message count. -/
theorem claim_C6_aggregation (emails : List EmailData) (now : Int) :
    (analyzeCancellationRequests emails now).statistics.cancellation_count =
        (emails.map (fun e => analyzeSingleEmail e now)).countP
          (fun a => a.is_cancellation) ∧
    (analyzeCancellationRequests emails now).cancellation_rate =
        (if 0 < emails.length
         then (((emails.map (fun e => analyzeSingleEmail e now)).countP
             (fun a => a.is_cancellation) : ℚ)) / (emails.length : ℚ) * 100
         else 0) ∧
    (analyzeCancellationRequests emails now).statistics.cancellation_count ≤
        (analyzeCancellationRequests emails now).statistics.total_emails ∧
    (analyzeCancellationRequests emails now).statistics.amazon_related ≤
        (analyzeCancellationRequests emails now).statistics.total_emails ∧
    (analyzeCancellationRequests emails now).statistics.high_priority ≤
        (analyzeCancellationRequests emails now).statistics.total_emails := by
  obtain ⟨f1, f2, f3, f4, f5⟩ :=
    foldl_analyzeStep_spec now emails ([], [], initStatistics emails.length)
  simp only [analyzeCancellationRequests]
  rw [f2, f3, f4, f5]
  simp only [initStatistics, Nat.zero_add]
  have hc1 : (emails.map (fun e => analyzeSingleEmail e now)).countP
      (fun a => a.is_cancellation) ≤ emails.length :=
    le_trans (List.countP_le_length _) (le_of_eq (List.length_map _ _))
  have hc2 : (emails.map (fun e => analyzeSingleEmail e now)).countP
      (fun a => a.amazon_related) ≤ emails.length :=
    le_trans (List.countP_le_length _) (le_of_eq (List.length_map _ _))
  have hc3 : (emails.map (fun e => analyzeSingleEmail e now)).countP
      (fun a => a.priority_level == "hoch") ≤ emails.length :=
    le_trans (List.countP_le_length _) (le_of_eq (List.length_map _ _))
  exact ⟨trivial, trivial, hc1, hc2, hc3⟩

/-- C7 (amended): the batch entry point is total and processes every
message; a per-message failure during the statistics update is caught and
the loop continues, but the failing message's result, appended before the
update, remains in the batch's AnalysisResult list - it is not excluded as
the claim as stated asserts. -/
theorem claim_C7_amended (emails : List EmailData) (now : Int) :
    (analyzeCancellationRequests emails now).analysis_results =
      emails.map (fun e => analyzeSingleEmail e now) := by
  obtain ⟨f1, _, _, _, _⟩ :=
    foldl_analyzeStep_spec now emails ([], [], initStatistics emails.length)
  simp only [analyzeCancellationRequests]
  rw [f1]
  simp

/-- C10 (amended): total_emails is fixed to the input length before any
processing, and cancellation_count equals the number of messages whose
analysis classifies them as cancellations - including messages whose
statistics update subsequently fails, since the count is incremented
before the failing timestamp access. -/
theorem claim_C10_amended (emails : List EmailData) (now : Int) :
    (analyzeCancellationRequests emails now).statistics.total_emails =
        emails.length ∧
    (analyzeCancellationRequests emails now).statistics.cancellation_count =
        (emails.map (fun e => analyzeSingleEmail e now)).countP
          (fun a => a.is_cancellation) := by
  obtain ⟨_, f2, f3, _, _⟩ :=
    foldl_analyzeStep_spec now emails ([], [], initStatistics emails.length)
  simp only [analyzeCancellationRequests]
  rw [f2, f3]
  simp [initStatistics]



theorem foldl_mostCommonPick_isFirstMax {α : Type} :
    ∀ (xs : List (α × Nat)) (x : α × Nat),
      IsFirstMax (xs.foldl mostCommonPick x) (x :: xs) := by
  intro xs
  induction xs with
  | nil =>
    intro x
    exact ⟨[], [], rfl, by simp, by simp⟩
  | cons y ys ih =>
    intro x
    simp only [List.foldl_cons]
    by_cases hxy : x.2 < y.2
    · have hpick : mostCommonPick x y = y := by simp [mostCommonPick, hxy]
      rw [hpick]
      obtain ⟨l₁, l₂, heq, hlt, hle⟩ := ih y
      have hyr : y.2 ≤ (List.foldl mostCommonPick y ys).2 := hle y (by simp)
      refine ⟨x :: l₁, l₂, by simp [heq], ?_, ?_⟩
      · intro q hq
        rcases List.mem_cons.mp hq with rfl | hq2
        · omega
        · exact hlt q hq2
      · intro q hq
        rcases List.mem_cons.mp hq with rfl | hq2
        · omega
        · exact hle q hq2
    · have hpick : mostCommonPick x y = x := by simp [mostCommonPick, hxy]
      rw [hpick]
      obtain ⟨l₁, l₂, heq, hlt, hle⟩ := ih x
      rcases l₁ with _ | ⟨a, l₁t⟩
      · simp only [List.nil_append] at heq
        injection heq with h1 h2
        refine ⟨[], y :: ys, by rw [List.nil_append, ← h1], by simp, ?_⟩
        intro q hq
        rcases List.mem_cons.mp hq with rfl | hq2
        · rw [← h1]
        · rcases List.mem_cons.mp hq2 with rfl | hq3
          · rw [← h1]
            omega
          · exact hle q (List.mem_cons_of_mem _ hq3)
      · simp only [List.cons_append] at heq
        injection heq with h1 h2
        subst h1
        have hxr : x.2 < (List.foldl mostCommonPick x ys).2 := hlt x (by simp)
        refine ⟨x :: y :: l₁t, l₂, congrArg (fun t => x :: y :: t) h2, ?_, ?_⟩
        · intro q hq
          rcases List.mem_cons.mp hq with rfl | hq2
          · exact hxr
          · rcases List.mem_cons.mp hq2 with rfl | hq3
            · omega
            · exact hlt q (List.mem_cons_of_mem _ hq3)
        · intro q hq
          rcases List.mem_cons.mp hq with rfl | hq2
          · omega
          · rcases List.mem_cons.mp hq2 with rfl | hq3
            · omega
            · exact hle q (List.mem_cons_of_mem _ hq3)


theorem mostCommon1_isFirstMax {α : Type} (l : List (α × Nat)) (h : l ≠ []) :
    ∃ p, mostCommon1 l = some p ∧ IsFirstMax p l := by
  rcases l with _ | ⟨x, xs⟩
  · exact absurd rfl h
  · exact ⟨_, rfl, foldl_mostCommonPick_isFirstMax xs x⟩

theorem counterAdd_ne_nil {α : Type} [DecidableEq α] (l : List (α × Nat))
    (k : α) : counterAdd l k ≠ [] := by
  rcases l with _ | ⟨⟨a, n⟩, rest⟩
  · simp [counterAdd]
  · simp only [counterAdd]
    split <;> simp

theorem foldl_counterAdd_ne_nil {α : Type} [DecidableEq α] :
    ∀ (ks : List α) (l : List (α × Nat)), l ≠ [] →
      ks.foldl counterAdd l ≠ [] := by
  intro ks
  induction ks with
  | nil => intro l hl; simpa using hl
  | cons k ks ih =>
    intro l _
    simp only [List.foldl_cons]
    exact ih (counterAdd l k) (counterAdd_ne_nil l k)

theorem buildCounter_ne_nil {α : Type} [DecidableEq α] (ks : List α)
    (h : ks ≠ []) : buildCounter ks ≠ [] := by
  rcases ks with _ | ⟨k, ks⟩
  · exact absurd rfl h
  · simp only [buildCounter, List.foldl_cons]
    exact foldl_counterAdd_ne_nil ks (counterAdd [] k) (counterAdd_ne_nil [] k)

/-- C8: trend analysis returns the empty result when no input is both a
cancellation and carries a timestamp; otherwise the peak weekday and peak
hour are the single highest-count entries of the respective frequency
structures over the qualifying subset, ties broken by first-encountered
insertion order. -/
theorem claim_C8_trends (results : List AnalysisResult) :
    ((∀ r ∈ results, r.is_cancellation = true → r.email_data.raw_date = none) →
      analyzeTrends results = none) ∧
    (∀ t, analyzeTrends results = some t →
      (∃ p, t.peak_day = some p ∧
        IsFirstMax p (buildCounter ((qualifyingDates results).map weekdayName))) ∧
      (∃ p, t.peak_hour = some p ∧
        IsFirstMax p (buildCounter ((qualifyingDates results).map hourOf)))) := by
  constructor
  · intro h
    have hd : qualifyingDates results = [] := by
      unfold qualifyingDates
      rw [List.filterMap_eq_nil_iff]
      intro r hr
      by_cases hc : r.is_cancellation = true
      · simp [hc, h r hr hc]
      · simp [hc]
    unfold analyzeTrends
    rw [hd]
    simp
  · intro t ht
    unfold analyzeTrends at ht
    by_cases h1 : results.isEmpty
    · simp [h1] at ht
    · by_cases h2 : (qualifyingDates results).isEmpty
      · simp [h1, h2] at ht
      · simp only [h1, h2, Bool.false_eq_true, if_false] at ht
        have hdne : qualifyingDates results ≠ [] := by
          simpa [List.isEmpty_iff] using h2
        have hwne : buildCounter ((qualifyingDates results).map weekdayName) ≠ [] :=
          buildCounter_ne_nil _ (by simpa using hdne)
        have hhne : buildCounter ((qualifyingDates results).map hourOf) ≠ [] :=
          buildCounter_ne_nil _ (by simpa using hdne)
        obtain ⟨p1, hp1, hf1⟩ := mostCommon1_isFirstMax _ hwne
        obtain ⟨p2, hp2, hf2⟩ := mostCommon1_isFirstMax _ hhne
        obtain rfl := (Option.some.inj ht).symm
        exact ⟨⟨p1, hp1, hf1⟩, ⟨p2, hp2, hf2⟩⟩


theorem eStornoNoDate_score :
    (analyzeSingleEmail eStornoNoDate 0).confidence_score = 1 := by
  have h0 : (analyzeSingleEmail eStornoNoDate 0).confidence_score =
      calcConfidenceScore [mStornoNoDate] eStornoNoDate 0 := rfl
  rw [h0]
  have hA : checkAmazonRelation eStornoNoDate = false := by decide
  have hO : extractOrderNumbers
      (eStornoNoDate.subject ++ " " ++ eStornoNoDate.body).data = [] := by decide
  have hR : ((0 : Int) -
      normalizeDatetime 0 eStornoNoDate.raw_date).fdiv 86400 ≤ 7 := by decide
  have hSub : (0 : Nat) < eStornoNoDate.subject.length := by decide
  have hBody : eStornoNoDate.body.length < 500 := by decide
  have hSend : senderIndicators.any
      (fun d => containsSub d.data (lowerText eStornoNoDate.sender.data)) = false := by
    decide
  have hC : calcMatchConfidence "storno" "primary_de" 0 eStornoNoDate = 1 := by
    norm_num [calcMatchConfidence, baseConfidence, List.lookup, hSend, hSub, hBody]
  have hO2 : extractOrderNumbers
      (eStornoNoDate.subject.data ++ ' ' :: eStornoNoDate.body.data) = [] := by decide
  have hR2 : (-normalizeDatetime 0 eStornoNoDate.raw_date).fdiv 86400 ≤ 7 := by decide
  norm_num [calcConfidenceScore, baseScore, weightedStep, hA, hO, hR, hO2, hR2,
    mStornoNoDate, hC]

theorem eStornoNoDate_is_cancellation :
    (analyzeSingleEmail eStornoNoDate 0).is_cancellation = true := by
  have h0 : (analyzeSingleEmail eStornoNoDate 0).is_cancellation =
      decide ((3:ℚ)/10 ≤ (analyzeSingleEmail eStornoNoDate 0).confidence_score) := rfl
  rw [h0, eStornoNoDate_score]
  norm_num

theorem eRecency_score :
    (analyzeSingleEmail eRecency 0).confidence_score = 19/20 := by
  have h0 : (analyzeSingleEmail eRecency 0).confidence_score =
      calcConfidenceScore [mRecency] eRecency 0 := rfl
  rw [h0]
  have hA : checkAmazonRelation eRecency = false := by decide
  have hO : extractOrderNumbers
      (eRecency.subject ++ " " ++ eRecency.body).data = [] := by decide
  have hR : ((0 : Int) -
      normalizeDatetime 0 eRecency.raw_date).fdiv 86400 ≤ 7 := by decide
  have hSub : ¬((1 : Nat) < eRecency.subject.length) := by decide
  have hBody : eRecency.body.length < 500 := by decide
  have hSend : senderIndicators.any
      (fun d => containsSub d.data (lowerText eRecency.sender.data)) = false := by
    decide
  have hC : calcMatchConfidence "storno" "primary_de" 1 eRecency = 9/10 := by
    norm_num [calcMatchConfidence, baseConfidence, List.lookup, hSend, hSub, hBody]
  have hO2 : extractOrderNumbers
      (eRecency.subject.data ++ ' ' :: eRecency.body.data) = [] := by decide
  have hR2 : (-normalizeDatetime 0 eRecency.raw_date).fdiv 86400 ≤ 7 := by decide
  norm_num [calcConfidenceScore, baseScore, weightedStep, hA, hO, hR, hO2, hR2,
    mRecency, hC]

theorem eRecency_spec_score :
    specMessageScore (analyzeSingleEmail eRecency 0).«matches» eRecency 0 = 9/10 := by
  have h0 : (analyzeSingleEmail eRecency 0).«matches» = [mRecency] := rfl
  rw [h0]
  have hA : checkAmazonRelation eRecency = false := by decide
  have hO : extractOrderNumbers
      (eRecency.subject ++ " " ++ eRecency.body).data = [] := by decide
  have hR : ¬(((0 : Int) -
      normalizeDatetime 0 eRecency.raw_date).natAbs ≤ 7 * 86400) := by decide
  have hSub : ¬((1 : Nat) < eRecency.subject.length) := by decide
  have hBody : eRecency.body.length < 500 := by decide
  have hSend : senderIndicators.any
      (fun d => containsSub d.data (lowerText eRecency.sender.data)) = false := by
    decide
  have hC : calcMatchConfidence "storno" "primary_de" 1 eRecency = 9/10 := by
    norm_num [calcMatchConfidence, baseConfidence, List.lookup, hSend, hSub, hBody]
  have hO2 : extractOrderNumbers
      (eRecency.subject.data ++ ' ' :: eRecency.body.data) = [] := by decide
  have hR2 : ¬((normalizeDatetime 0 eRecency.raw_date).natAbs ≤ 604800) := by decide
  norm_num [specMessageScore, specWeightedMean, specTopWeights, List.range,
    List.range.loop, hA, hO, hR, hO2, hR2, mRecency, hC]


/-- Witness for C1 at the concrete keyword-free message `eNoKeyword`. -/
theorem claim_C1_witness :
    0 ≤ (analyzeSingleEmail eNoKeyword 0).confidence_score ∧
    (analyzeSingleEmail eNoKeyword 0).confidence_score ≤ 1 ∧
    (analyzeSingleEmail eNoKeyword 0).confidence_score = 0 :=
  ⟨(claim_C1_confidence_in_unit_interval eNoKeyword 0).1, (claim_C1_confidence_in_unit_interval eNoKeyword 0).2.1,
    (claim_C1_confidence_in_unit_interval eNoKeyword 0).2.2 (by decide)⟩

/-- Witness for C9 at the concrete message `eStorno`, which has a keyword
match. -/
theorem claim_C9_witness :
    3/10 ≤ (analyzeSingleEmail eStorno 0).confidence_score ∧
    (analyzeSingleEmail eStorno 0).is_cancellation = true :=
  (claim_C9_threshold_reachability eStorno 0).1 (by decide)

/-- Witness for the amended C3 at the concrete message `eStorno`. -/
theorem claim_C3_amended_witness :
    (analyzeSingleEmail eStorno 0).confidence_score =
      specMessageScoreAmended (analyzeSingleEmail eStorno 0).«matches» eStorno 0 :=
  claim_C3_amended eStorno 0 (by decide)

/-- Counterexample to C3 as stated: for the message `eRecency`, dated 7.5
days before the reference time, the code adds the recency bonus (floored
day difference 7 <= 7) and scores 19/20, while the spec formula with the
recency clause read as within 7 days of now scores 9/10. -/
theorem claim_C3_counterexample :
    (analyzeSingleEmail eRecency 0).confidence_score ≠
      specMessageScore (analyzeSingleEmail eRecency 0).«matches» eRecency 0 := by
  rw [eRecency_score, eRecency_spec_score]
  norm_num

/-- Witness for C5 at the concrete message `eRef`, whose extracted
identifier 1234567890 satisfies the validity predicate. -/
theorem claim_C5_witness :
    (analyzeSingleEmail eRef 0).order_numbers = ["1234567890"] ∧
    8 ≤ ("1234567890" : String).length ∧
    ("1234567890" : String).data.any Char.isDigit = true :=
  ⟨by decide, ((claim_C5_order_numbers eRef 0).2 "1234567890" (by decide)).1,
    ((claim_C5_order_numbers eRef 0).2 "1234567890" (by decide)).2⟩

/-- Counterexample to C7 as stated: processing `eMissingDate` raises inside
the loop (the statistics update fails on the missing timestamp, flag
false), yet its result is present in analysis_results rather than
excluded. -/
theorem claim_C7_counterexample :
    (analyzeCancellationRequests [eMissingDate] 0).analysis_results.length = 1 ∧
    (updateStatistics (initStatistics 1) (analyzeSingleEmail eMissingDate 0)).2
      = false := by
  constructor
  · obtain ⟨f1, _, _, _, _⟩ :=
      foldl_analyzeStep_spec 0 [eMissingDate] ([], [], initStatistics [eMissingDate].length)
    simp only [analyzeCancellationRequests]
    rw [f1]
    simp
  · rfl

/-- Counterexample to C10 as stated: `eStornoNoDate` is skipped by the
loop's except branch (statistics-update flag false), yet it contributes 1
to cancellation_count, which the claim as stated rules out. -/
theorem claim_C10_counterexample :
    (analyzeCancellationRequests [eStornoNoDate] 0).statistics.cancellation_count
      = 1 ∧
    (updateStatistics (initStatistics 1) (analyzeSingleEmail eStornoNoDate 0)).2
      = false := by
  constructor
  · obtain ⟨_, _, f3, _, _⟩ :=
      foldl_analyzeStep_spec 0 [eStornoNoDate]
        ([], [], initStatistics [eStornoNoDate].length)
    simp only [analyzeCancellationRequests]
    rw [f3]
    simp [initStatistics, List.countP_cons, eStornoNoDate_is_cancellation]
  · rfl

/-- Witness for C8: the empty list yields the empty trend result, and a
one-element qualifying list yields a peak weekday that is the first
maximum of its weekday counter. -/
theorem claim_C8_witness :
    analyzeTrends ([] : List AnalysisResult) = none ∧
    (∃ t, analyzeTrends [rTrend] = some t ∧
      ∃ p, t.peak_day = some p ∧
        IsFirstMax p (buildCounter ((qualifyingDates [rTrend]).map weekdayName))) := by
  constructor
  · exact (claim_C8_trends []).1 (by simp)
  · exact ⟨_, rfl, ((claim_C8_trends [rTrend]).2 _ rfl).1⟩

end SaeConnect
